import Mathlib

/-!
Shallow embedding of the `ccs` provider-config core
(`src/lib/claude-code.ts`, `src/providers/*.ts`): the settings
merge engine (`loadProviderConfig`, `unloadProviderConfig`), the config
detector (`detectCurrentConfig`), backup restore (`restoreBackup`) and the
static provider registry.

JSON documents are modelled as association lists of string keys and JSON
values, mirroring JavaScript objects (whose keys are unique and
insertion-ordered); object property assignment and literal spread
`{...base, k: v}` become `setKey`, which replaces the value at the key's
existing position or appends the key at the end — exactly the JS object
semantics on duplicate-free lists.
-/

set_option autoImplicit false

namespace CCS

/-- A JSON value (numbers as integers suffice for this code base: the only
numeric settings value the program writes is the literal `1`). -/
inductive JsonValue where
  | null
  | bool (b : Bool)
  | num (n : Int)
  | str (s : String)
  | arr (xs : List JsonValue)
  | obj (kvs : List (String × JsonValue))

/-- A JSON object / settings document: an association list of keys and
values, as in a parsed `settings.json`. -/
abbrev Doc := List (String × JsonValue)

/-- JavaScript truthiness of a JSON value (`undefined` is handled by
`truthyOpt`): `null`, `false`, `0` and `""` are falsy, objects and arrays
are always truthy. -/
def JsonValue.truthy : JsonValue → Bool
  | .null => false
  | .bool b => b
  | .num n => n != 0
  | .str s => s != ""
  | .arr _ => true
  | .obj _ => true

/-- Truthiness of a possibly-absent value: an absent property
(`undefined`) is falsy. -/
def truthyOpt : Option JsonValue → Bool
  | none => false
  | some v => v.truthy

/-- Property read `d[k]`: the value at the first entry with key `k`. -/
def lookupKey (d : Doc) (k : String) : Option JsonValue :=
  match d with
  | [] => none
  | (k', v) :: rest => if k' == k then some v else lookupKey rest k

/-- Property write `d[k] = v` / literal-spread override `{...d, k: v}`:
replace the value at the key's existing position, else append. -/
def setKey (d : Doc) (k : String) (v : JsonValue) : Doc :=
  match d with
  | [] => [(k, v)]
  | (k', v') :: rest => if k' == k then (k, v) :: rest else (k', v') :: setKey rest k v

/-- `settings.env || {}` followed by `Object.entries`: the entries of the
`env` sub-object, `[]` when `env` is absent (for documents conforming to
the `ClaudeSettings` interface, `env` is an object when present). -/
def envEntries (d : Doc) : Doc :=
  match lookupKey d "env" with
  | some (JsonValue.obj kvs) => kvs
  | _ => []

/-- `pat` occurs in `s` as a contiguous substring
(JS `String.prototype.includes`). -/
def containsSubstr (s pat : String) : Bool :=
  decide (List.IsInfix pat.data s.data)

/-- `MANAGED_ENV_KEYS` from `src/lib/claude-code.ts`: all env keys the
tool manages. -/
def MANAGED_ENV_KEYS : List String :=
  [ "ANTHROPIC_AUTH_TOKEN",
    "ANTHROPIC_BASE_URL",
    "API_TIMEOUT_MS",
    "CLAUDE_CODE_DISABLE_NONESSENTIAL_TRAFFIC",
    "ANTHROPIC_MODEL",
    "ANTHROPIC_SMALL_FAST_MODEL",
    "ANTHROPIC_DEFAULT_SONNET_MODEL",
    "ANTHROPIC_DEFAULT_OPUS_MODEL",
    "ANTHROPIC_DEFAULT_HAIKU_MODEL",
    "CLAUDE_CODE_SUBAGENT_MODEL" ]

/-- `ProviderRegion` from `src/providers/index.ts`. -/
structure ProviderRegion where
  id : String
  name : String
  baseUrl : String
  apiKeyUrl : String

/-- `ProviderModel` from `src/providers/index.ts`. -/
structure ProviderModel where
  id : String
  name : String
  thinking : Bool := false
  default : Bool := false

/-- `Provider` from `src/providers/index.ts`. -/
structure Provider where
  id : String
  name : String
  description : String
  regions : List ProviderRegion
  models : List ProviderModel
  getEnvOverrides : String → List (String × String)
  getValidateUrl : String → String

/-- `claudeProvider` from `src/providers/claude.ts`. -/
def claudeProvider : Provider where
  id := "claude"
  name := "Anthropic (Claude)"
  description := "Official Anthropic Claude API"
  regions :=
    [ { id := "global", name := "Global",
        baseUrl := "https://api.anthropic.com",
        apiKeyUrl := "https://console.anthropic.com/settings/keys" } ]
  models :=
    [ { id := "claude-opus-4-5-20251120", name := "Claude Opus 4.5", default := true },
      { id := "claude-sonnet-4-20250514", name := "Claude Sonnet 4" },
      { id := "claude-haiku-3-5-20250620", name := "Claude Haiku 3.5" },
      { id := "claude-3-5-sonnet-20241022", name := "Claude 3.5 Sonnet" },
      { id := "claude-3-opus-20240229", name := "Claude 3 Opus" },
      { id := "claude-3-sonnet-20240229", name := "Claude 3 Sonnet" },
      { id := "claude-3-haiku-20240307", name := "Claude 3 Haiku" } ]
  getEnvOverrides := fun model => [("ANTHROPIC_MODEL", model)]
  getValidateUrl := fun _ => "https://api.anthropic.com/v1/models"

/-- `zhipuProvider` from `src/providers/zhipu.ts`. -/
def zhipuProvider : Provider where
  id := "zhipu"
  name := "Z.AI / GLM"
  description := "Zhipu AI GLM Coding Plan"
  regions :=
    [ { id := "global", name := "Global",
        baseUrl := "https://api.z.ai/api/anthropic",
        apiKeyUrl := "https://z.ai/manage-apikey/apikey-list" },
      { id := "china", name := "China",
        baseUrl := "https://open.bigmodel.cn/api/anthropic",
        apiKeyUrl := "https://bigmodel.cn/usercenter/proj-mgmt/apikeys" } ]
  models := [ { id := "glm-5", name := "GLM-5", default := true } ]
  getEnvOverrides := fun _ => []
  getValidateUrl := fun regionId =>
    if regionId == "global" then "https://api.z.ai/api/coding/paas/v4/models"
    else "https://open.bigmodel.cn/api/coding/paas/v4/models"

/-- `minimaxProvider` from `src/providers/minimax.ts`. -/
def minimaxProvider : Provider where
  id := "minimax"
  name := "MiniMax"
  description := "MiniMax M2.5 AI Model"
  regions :=
    [ { id := "global", name := "Global",
        baseUrl := "https://api.minimax.io/anthropic",
        apiKeyUrl := "https://platform.minimax.io/user-center/basic-information/interface-key" },
      { id := "china", name := "China",
        baseUrl := "https://api.minimaxi.com/anthropic",
        apiKeyUrl := "https://platform.minimaxi.com/user-center/basic-information/interface-key" } ]
  models := [ { id := "MiniMax-M2.5", name := "MiniMax-M2.5", default := true } ]
  getEnvOverrides := fun model =>
    [ ("ANTHROPIC_MODEL", model),
      ("ANTHROPIC_SMALL_FAST_MODEL", model),
      ("ANTHROPIC_DEFAULT_SONNET_MODEL", model),
      ("ANTHROPIC_DEFAULT_OPUS_MODEL", model),
      ("ANTHROPIC_DEFAULT_HAIKU_MODEL", model) ]
  getValidateUrl := fun regionId =>
    if regionId == "global" then "https://api.minimax.io/anthropic/v1/models"
    else "https://api.minimaxi.com/anthropic/v1/models"

/-- `kimiProvider` from `src/providers/kimi.ts`. -/
def kimiProvider : Provider where
  id := "kimi"
  name := "Kimi / Moonshot"
  description := "Moonshot AI Kimi K2 Models"
  regions :=
    [ { id := "global", name := "Global",
        baseUrl := "https://api.moonshot.ai/anthropic",
        apiKeyUrl := "https://platform.moonshot.ai/console/api-keys" } ]
  models :=
    [ { id := "kimi-k2.5", name := "Kimi K2.5 (Latest)", default := true },
      { id := "kimi-k2-thinking-turbo", name := "Kimi K2 Thinking Turbo", thinking := true },
      { id := "kimi-k2-turbo-preview", name := "Kimi K2 Turbo Preview (Fast)" },
      { id := "kimi-k2-0905-preview", name := "Kimi K2 0905 Preview (256K)" } ]
  getEnvOverrides := fun model =>
    [ ("ANTHROPIC_MODEL", model),
      ("ANTHROPIC_DEFAULT_SONNET_MODEL", model),
      ("ANTHROPIC_DEFAULT_OPUS_MODEL", model),
      ("ANTHROPIC_DEFAULT_HAIKU_MODEL", model),
      ("CLAUDE_CODE_SUBAGENT_MODEL", model) ]
  getValidateUrl := fun _ => "https://api.moonshot.ai/v1/models"

/-- The provider registry from `src/providers/index.ts`. -/
def providers : List Provider :=
  [claudeProvider, zhipuProvider, minimaxProvider, kimiProvider]

/-- `getProvider` from `src/providers/index.ts`. -/
def getProvider (id : String) : Option Provider :=
  providers.find? (fun p => p.id == id)

/-- JS `String.prototype.startsWith`, on the character sequence. -/
def strStartsWith (s pre : String) : Bool :=
  List.isPrefixOf pre.data s.data

/-- JS `String.prototype.endsWith`, on the character sequence. -/
def strEndsWith (s suf : String) : Bool :=
  List.isSuffixOf suf.data s.data

/-- `r.baseUrl.replace(/\/anthropic$/, '')`: strip one trailing
`/anthropic` path segment if present. -/
def stripAnthropicSuffix (s : String) : String :=
  if strEndsWith s "/anthropic" then
    String.mk (s.data.take (s.data.length - "/anthropic".data.length))
  else s

/-- `detectProviderByBaseUrl` from `src/providers/index.ts`. -/
def detectProviderByBaseUrl (baseUrl : String) : Option Provider :=
  providers.find? (fun p =>
    p.regions.any (fun r => strStartsWith baseUrl (stripAnthropicSuffix r.baseUrl)))

/-- `ClaudeCodeManager.mapModelToSetting`. -/
def mapModelToSetting (modelId providerId : String) : String :=
  if providerId == "claude" then
    if containsSubstr modelId "opus" then "opus"
    else if containsSubstr modelId "sonnet" then "sonnet"
    else if containsSubstr modelId "haiku" then "haiku"
    else modelId
  else modelId

/-- The managed-key filter used by both `loadProviderConfig` and
`unloadProviderConfig`: keep exactly the env entries whose key is not in
`MANAGED_ENV_KEYS`. -/
def cleanEnv (env : Doc) : Doc :=
  env.filter (fun p => !(MANAGED_ENV_KEYS.contains p.1))

/-- The new-env computation of `ClaudeCodeManager.loadProviderConfig`:
drop the managed keys from the existing env, spread in the four base
settings (`{...cleanedEnv, ANTHROPIC_AUTH_TOKEN, ANTHROPIC_BASE_URL,
API_TIMEOUT_MS, CLAUDE_CODE_DISABLE_NONESSENTIAL_TRAFFIC}`), then assign
the provider's env overrides for the model in order. -/
def applyEnv (provider : Provider) (region : ProviderRegion) (modelId apiKey : String)
    (existingEnv : Doc) : Doc :=
  let cleanedEnv := cleanEnv existingEnv
  let base1 := setKey cleanedEnv "ANTHROPIC_AUTH_TOKEN" (JsonValue.str apiKey)
  let base2 := setKey base1 "ANTHROPIC_BASE_URL" (JsonValue.str region.baseUrl)
  let base3 := setKey base2 "API_TIMEOUT_MS" (JsonValue.str "3000000")
  let base4 := setKey base3 "CLAUDE_CODE_DISABLE_NONESSENTIAL_TRAFFIC" (JsonValue.num 1)
  let overrides := provider.getEnvOverrides modelId
  overrides.foldl (fun e q => setKey e q.1 (JsonValue.str q.2)) base4

/-- The pure settings transformation of `ClaudeCodeManager.loadProviderConfig`
(the "apply" of the spec): given the current parsed settings document it
returns the document that is saved, or the thrown `Unknown region` error
message. Backup / onboarding side effects are modelled separately in
`loadProviderConfigS`. -/
def loadProviderConfig (provider : Provider) (regionId modelId apiKey : String)
    (settings : Doc) : Except String Doc :=
  match provider.regions.find? (fun r => r.id == regionId) with
  | none => Except.error ("Unknown region: " ++ regionId)
  | some region =>
    let newEnv := applyEnv provider region modelId apiKey (envEntries settings)
    let modelSetting := mapModelToSetting modelId provider.id
    Except.ok (setKey (setKey settings "env" (JsonValue.obj newEnv))
      "model" (JsonValue.str modelSetting))

/-- The pure settings transformation of
`ClaudeCodeManager.unloadProviderConfig`: `none` models the early return
(`if (!settings.env && !settings.model) return`) in which nothing is
written, so the persisted file stays byte-identical; `some d` means `d` is
saved as the new settings document. -/
def unloadProviderConfig (settings : Doc) : Option Doc :=
  if !(truthyOpt (lookupKey settings "env")) && !(truthyOpt (lookupKey settings "model")) then
    none
  else
    let cleanedEnv := cleanEnv (envEntries settings)
    let newSettings : Doc :=
      if cleanedEnv.isEmpty then [] else [("env", JsonValue.obj cleanedEnv)]
    some newSettings

/-- Result record of `ClaudeCodeManager.detectCurrentConfig`. -/
structure DetectResult where
  provider : Option Provider
  regionId : Option String
  apiKey : Option String
  baseUrl : Option String
  model : Option String

/-- The source reads env values with a TypeScript `as string | undefined`
cast; this extracts the string (non-string truthy values would fault at
runtime and are unreachable under the `ClaudeSettings` usage). -/
def jstr : Option JsonValue → Option String
  | some (JsonValue.str s) => some s
  | _ => none

/-- `ClaudeCodeManager.detectCurrentConfig` as a pure function of the
parsed settings document. -/
def detectCurrentConfig (settings : Doc) : DetectResult :=
  let env := envEntries settings
  let baseUrlV := lookupKey env "ANTHROPIC_BASE_URL"
  let apiKeyV := lookupKey env "ANTHROPIC_AUTH_TOKEN"
  let modelV := lookupKey env "ANTHROPIC_MODEL"
  if !(truthyOpt baseUrlV) || !(truthyOpt apiKeyV) then
    { provider := none, regionId := none, apiKey := none, baseUrl := none, model := none }
  else
    let baseUrl := (jstr baseUrlV).getD ""
    let provider := detectProviderByBaseUrl baseUrl
    let regionId :=
      match provider with
      | some p => (p.regions.find? (fun r => r.baseUrl == baseUrl)).map (fun r => r.id)
      | none => none
    { provider := provider, regionId := regionId,
      apiKey := jstr apiKeyV, baseUrl := some baseUrl, model := jstr modelV }

/-! ## State-level model: backup, onboarding, and the mutating operations

`ClaudeCodeManager` reads and writes three locations: the settings
document (`~/.claude/settings.json`), the config document
(`~/.claude.json`, holding `hasCompletedOnboarding`), and the backup
directory.  `SysState` carries their parsed contents; a backup is the
settings content snapshotted at creation time. -/

/-- The manager-visible state: parsed settings document, parsed config
document, and the contents of the backup files in creation order. -/
structure SysState where
  settings : Doc
  config : Doc
  backups : List Doc

/-- `ClaudeCodeManager.createBackup`: snapshot the current settings
content into a fresh backup file. -/
def createBackupS (st : SysState) : SysState :=
  { st with backups := st.backups ++ [st.settings] }

/-- `ClaudeCodeManager.ensureOnboarding`: if `hasCompletedOnboarding` is
falsy in the config document, write the config back with the flag set. -/
def ensureOnboardingS (st : SysState) : SysState :=
  if truthyOpt (lookupKey st.config "hasCompletedOnboarding") then st
  else { st with config := setKey st.config "hasCompletedOnboarding" (JsonValue.bool true) }

/-- `ClaudeCodeManager.loadProviderConfig` with its side effects, in
source order: auto-backup, ensure onboarding, then resolve the region and
either throw (`some errorMessage`, settings untouched) or save the merged
document. -/
def loadProviderConfigS (p : Provider) (regionId modelId apiKey : String)
    (st : SysState) : SysState × Option String :=
  let st1 := createBackupS st
  let st2 := ensureOnboardingS st1
  match loadProviderConfig p regionId modelId apiKey st2.settings with
  | Except.error e => (st2, some e)
  | Except.ok d => ({ st2 with settings := d }, none)

/-- `ClaudeCodeManager.unloadProviderConfig` with its side effects:
auto-backup, then either the early no-op return or saving the cleaned
document. -/
def unloadProviderConfigS (st : SysState) : SysState :=
  let st1 := createBackupS st
  match unloadProviderConfig st1.settings with
  | none => st1
  | some d => { st1 with settings := d }

/-! ## File-system model for backup restore

`restoreBackup` works on raw file contents (it copies bytes), so it is
modelled over a map from paths to file-content strings.  `JSON.parse` is a
library call; it enters the model as an abstract parseability predicate
`parseOk` the operation is parametric in. -/

/-- A file system: an association list from paths to byte contents. -/
structure FS where
  files : List (String × String)

/-- `existsSync`. -/
def FS.exists (fs : FS) (path : String) : Bool :=
  fs.files.any (fun q => q.1 == path)

/-- `readFileSync`: the content at `path`, if the file exists. -/
def FS.read (fs : FS) (path : String) : Option String :=
  match fs.files.find? (fun q => q.1 == path) with
  | some q => some q.2
  | none => none

/-- Entry update for `FS.write`: replace the content at the path's entry,
else append a new file entry. -/
def FS.writeEntries : List (String × String) → String → String → List (String × String)
  | [], path, c => [(path, c)]
  | (a, b) :: rest, path, c =>
    if a == path then (path, c) :: rest else (a, b) :: FS.writeEntries rest path c

/-- `writeFileSync` / the write half of `copyFileSync`: replace or create
the file at `path` with content `c`. -/
def FS.write (fs : FS) (path : String) (c : String) : FS :=
  { files := FS.writeEntries fs.files path c }

/-- The errors `ClaudeCodeManager.restoreBackup` can throw: the explicit
`Backup file not found` error, and the `JSON.parse` exception on invalid
backup content. -/
inductive RestoreError where
  | backupNotFound (path : String)
  | invalidContent

/-- `ClaudeCodeManager.restoreBackup`, parametric in the JSON-parse
success predicate `parseOk`: fail if the backup path does not exist, fail
if its content does not parse, else copy the backup file's bytes over the
live settings file at `settingsPath`. -/
def restoreBackup (parseOk : String → Bool) (settingsPath : String)
    (fs : FS) (backupPath : String) : Except RestoreError FS :=
  if !(fs.exists backupPath) then
    Except.error (RestoreError.backupNotFound backupPath)
  else
    match fs.read backupPath with
    | none => Except.error (RestoreError.backupNotFound backupPath)
    | some content =>
      if !(parseOk content) then Except.error RestoreError.invalidContent
      else Except.ok (fs.write settingsPath content)

/-! ## Concrete fixtures used by witness theorems -/

/-- A parse predicate accepting everything (stands in for `JSON.parse`
succeeding on the backup's content). -/
def parseAccepting : String → Bool := fun _ => true

/-- A parse predicate rejecting everything (stands in for `JSON.parse`
throwing on the backup's content). -/
def parseRejecting : String → Bool := fun _ => false

/-- A concrete two-file file system. -/
def fsExample : FS :=
  { files := [("backups/settings-1.json", "backupbytes"), ("settings.json", "livebytes")] }

/-- A settings document with one unmanaged and one managed env key plus an
unrelated top-level key. -/
def frameDocIn : Doc :=
  [("env", JsonValue.obj [("FOO", JsonValue.str "x"),
      ("ANTHROPIC_MODEL", JsonValue.str "stale")]),
   ("other", JsonValue.str "keep")]

/-- The document produced by applying `zhipu`/`global`/`glm-5` to
`frameDocIn`. -/
def frameDocOut : Doc :=
  (loadProviderConfig zhipuProvider "global" "glm-5" "sk" frameDocIn).toOption.getD []

/-- A settings document whose env holds a stale managed key and an
unmanaged key. -/
def managedDocIn : Doc :=
  [("env", JsonValue.obj [("ANTHROPIC_MODEL", JsonValue.str "stale"),
      ("FOO", JsonValue.str "x")])]

/-- The document produced by applying `kimi`/`global`/`kimi-k2.5` to
`managedDocIn`. -/
def managedDocOut : Doc :=
  (loadProviderConfig kimiProvider "global" "kimi-k2.5" "sk" managedDocIn).toOption.getD []

/-- The document produced by applying `kimi`/`global`/`kimi-k2.5` to the
empty document. -/
def managedDocOutEmpty : Doc :=
  (loadProviderConfig kimiProvider "global" "kimi-k2.5" "sk" []).toOption.getD []

/-- An input document for the unload-after-apply round trip. -/
def roundtripDocIn : Doc :=
  [("env", JsonValue.obj [("FOO", JsonValue.str "x"),
      ("ANTHROPIC_MODEL", JsonValue.str "stale")])]

/-- `roundtripDocIn` after applying `kimi`/`global`/`kimi-k2.5`. -/
def roundtripDocApplied : Doc :=
  (loadProviderConfig kimiProvider "global" "kimi-k2.5" "sk" roundtripDocIn).toOption.getD []

/-- `roundtripDocApplied` after `unloadProviderConfig`. -/
def roundtripDocUnloaded : Doc :=
  (unloadProviderConfig roundtripDocApplied).getD []

/-- The document produced by applying `claude`/`global` with an
opus-containing model id to the empty document. -/
def aliasDocOut : Doc :=
  (loadProviderConfig claudeProvider "global" "claude-3-opus-20240229" "sk" []).toOption.getD []

/-- The document produced by applying `minimax`/`china` to the empty
document with a nonempty credential. -/
def detectDocOut : Doc :=
  (loadProviderConfig minimaxProvider "china" "MiniMax-M2.5" "sk" []).toOption.getD []

/-! ## Lemmas about the document operations -/

theorem lookupKey_setKey_self (d : Doc) (k : String) (v : JsonValue) :
    lookupKey (setKey d k v) k = some v := by
  induction d with
  | nil => simp [setKey, lookupKey]
  | cons hd tl ih =>
    obtain ⟨a, b⟩ := hd
    by_cases h : a = k
    · subst h; simp [setKey, lookupKey]
    · simp [setKey, lookupKey, h, ih]

theorem lookupKey_setKey_ne (d : Doc) (k kq : String) (v : JsonValue) (h : kq ≠ k) :
    lookupKey (setKey d k v) kq = lookupKey d kq := by
  induction d with
  | nil => simp [setKey, lookupKey, Ne.symm h]
  | cons hd tl ih =>
    obtain ⟨a, b⟩ := hd
    by_cases ha : a = k
    · subst ha; simp [setKey, lookupKey, Ne.symm h]
    · by_cases hq : a = kq
      · subst hq; simp [setKey, lookupKey, ha]
      · simp [setKey, lookupKey, ha, hq, ih]

theorem lookupKey_cleanEnv_of_not_managed (env : Doc) (k : String)
    (h : k ∉ MANAGED_ENV_KEYS) :
    lookupKey (cleanEnv env) k = lookupKey env k := by
  induction env with
  | nil => rfl
  | cons hd tl ih =>
    obtain ⟨a, b⟩ := hd
    by_cases ha : a = k
    · subst ha
      simp [cleanEnv, List.filter_cons, h, lookupKey]
    · by_cases hm : a ∈ MANAGED_ENV_KEYS <;>
        simpa [cleanEnv, List.filter_cons, hm, lookupKey, ha] using ih

theorem lookupKey_cleanEnv_of_managed (env : Doc) (k : String)
    (h : k ∈ MANAGED_ENV_KEYS) :
    lookupKey (cleanEnv env) k = none := by
  induction env with
  | nil => rfl
  | cons hd tl ih =>
    obtain ⟨a, b⟩ := hd
    by_cases ha : a = k
    · subst ha
      simpa [cleanEnv, List.filter_cons, h] using ih
    · by_cases hm : a ∈ MANAGED_ENV_KEYS <;>
        simpa [cleanEnv, List.filter_cons, hm, lookupKey, ha] using ih

/-- Looking a key up after a left fold of `setKey` assignments: the last
assignment to the key wins, else the underlying document answers. -/
theorem lookupKey_foldl_setKey (ov : List (String × String)) (e : Doc) (k : String) :
    lookupKey (ov.foldl (fun acc q => setKey acc q.1 (JsonValue.str q.2)) e) k
      = ((ov.reverse.find? (fun q => q.1 == k)).map (fun q => JsonValue.str q.2)).or
          (lookupKey e k) := by
  induction ov generalizing e with
  | nil => simp
  | cons q rest ih =>
    simp only [List.foldl_cons, List.reverse_cons, ih, List.find?_append]
    cases hf : rest.reverse.find? (fun r => r.1 == k) with
    | some r => simp
    | none =>
      by_cases hq : q.1 = k
      · have hb : (q.1 == k) = true := by simp [hq]
        simp only [Option.map_none, Option.none_or, List.find?, hb]
        rw [← hq, lookupKey_setKey_self]
        simp
      · have hb : (q.1 == k) = false := by simp [hq]
        simp only [Option.map_none, Option.none_or, List.find?, hb]
        rw [lookupKey_setKey_ne _ _ _ _ (Ne.symm hq)]

theorem lookupKey_foldl_setKey_of_ne (ov : List (String × String)) (e : Doc) (k : String)
    (h : ∀ q ∈ ov, q.1 ≠ k) :
    lookupKey (ov.foldl (fun acc q => setKey acc q.1 (JsonValue.str q.2)) e) k
      = lookupKey e k := by
  rw [lookupKey_foldl_setKey]
  have hf : ov.reverse.find? (fun q => q.1 == k) = none := by
    rw [List.find?_eq_none]
    intro q hq
    simpa using h q (List.mem_reverse.mp hq)
  simp [hf]

theorem envEntries_of_apply_result (D E : Doc) (M : String) :
    envEntries (setKey (setKey D "env" (JsonValue.obj E)) "model" (JsonValue.str M)) = E := by
  unfold envEntries
  rw [lookupKey_setKey_ne _ _ _ _ (by decide), lookupKey_setKey_self]

/-- Inversion of a successful `loadProviderConfig`. -/
theorem loadProviderConfig_ok_elim (p : Provider) (rid mid key : String) (D Dq : Doc)
    (hap : loadProviderConfig p rid mid key D = Except.ok Dq) :
    ∃ region, p.regions.find? (fun r => r.id == rid) = some region ∧
      Dq = setKey (setKey D "env"
          (JsonValue.obj (applyEnv p region mid key (envEntries D))))
        "model" (JsonValue.str (mapModelToSetting mid p.id)) := by
  unfold loadProviderConfig at hap
  cases hfind : p.regions.find? (fun r => r.id == rid) with
  | none => rw [hfind] at hap; simp at hap
  | some region =>
    rw [hfind] at hap
    simp only [Except.ok.injEq] at hap
    exact ⟨region, rfl, hap.symm⟩

/-! ## Facts about the static provider registry -/

/-- Every env-override key of every registry provider is a managed key. -/
theorem overrides_key_managed (p : Provider) (hp : p ∈ providers) (m : String) :
    ∀ q ∈ p.getEnvOverrides m, q.1 ∈ MANAGED_ENV_KEYS := by
  simp only [providers, List.mem_cons, List.not_mem_nil, or_false] at hp
  intro q hq
  rcases hp with rfl | rfl | rfl | rfl
  · simp only [claudeProvider, List.mem_cons, List.mem_singleton, List.not_mem_nil,
      or_false] at hq
    subst hq; simp [MANAGED_ENV_KEYS]
  · simp [zhipuProvider] at hq
  · simp only [minimaxProvider, List.mem_cons, List.mem_singleton, List.not_mem_nil,
      or_false] at hq
    rcases hq with rfl | rfl | rfl | rfl | rfl <;> simp [MANAGED_ENV_KEYS]
  · simp only [kimiProvider, List.mem_cons, List.mem_singleton, List.not_mem_nil,
      or_false] at hq
    rcases hq with rfl | rfl | rfl | rfl | rfl <;> simp [MANAGED_ENV_KEYS]

/-- No env-override key of a registry provider is one of the four base
keys that `loadProviderConfig` sets directly. -/
theorem overrides_key_not_base (p : Provider) (hp : p ∈ providers) (m : String) :
    ∀ q ∈ p.getEnvOverrides m,
      q.1 ≠ "ANTHROPIC_AUTH_TOKEN" ∧ q.1 ≠ "ANTHROPIC_BASE_URL" ∧
      q.1 ≠ "API_TIMEOUT_MS" ∧ q.1 ≠ "CLAUDE_CODE_DISABLE_NONESSENTIAL_TRAFFIC" := by
  simp only [providers, List.mem_cons, List.not_mem_nil, or_false] at hp
  intro q hq
  rcases hp with rfl | rfl | rfl | rfl
  · simp only [claudeProvider, List.mem_cons, List.mem_singleton, List.not_mem_nil,
      or_false] at hq
    subst hq; simp
  · simp [zhipuProvider] at hq
  · simp only [minimaxProvider, List.mem_cons, List.mem_singleton, List.not_mem_nil,
      or_false] at hq
    rcases hq with rfl | rfl | rfl | rfl | rfl <;> simp
  · simp only [kimiProvider, List.mem_cons, List.mem_singleton, List.not_mem_nil,
      or_false] at hq
    rcases hq with rfl | rfl | rfl | rfl | rfl <;> simp

/-- Registry override lists assign each of their keys once: the last (and
only) assignment to the key of a member entry is that entry. -/
theorem overrides_find_reverse (p : Provider) (hp : p ∈ providers) (m : String) :
    ∀ q ∈ p.getEnvOverrides m,
      (p.getEnvOverrides m).reverse.find? (fun r => r.1 == q.1) = some q := by
  simp only [providers, List.mem_cons, List.not_mem_nil, or_false] at hp
  intro q hq
  rcases hp with rfl | rfl | rfl | rfl
  · simp only [claudeProvider, List.mem_cons, List.mem_singleton, List.not_mem_nil,
      or_false] at hq
    subst hq; rfl
  · simp [zhipuProvider] at hq
  · simp only [minimaxProvider, List.mem_cons, List.mem_singleton, List.not_mem_nil,
      or_false] at hq
    rcases hq with rfl | rfl | rfl | rfl | rfl <;> rfl
  · simp only [kimiProvider, List.mem_cons, List.mem_singleton, List.not_mem_nil,
      or_false] at hq
    rcases hq with rfl | rfl | rfl | rfl | rfl <;> rfl

/-! ## Lemmas about `applyEnv` for registry providers -/

theorem lookupKey_applyEnv_not_managed (p : Provider) (hp : p ∈ providers)
    (region : ProviderRegion) (mid key : String) (env : Doc) (k : String)
    (hk : k ∉ MANAGED_ENV_KEYS) :
    lookupKey (applyEnv p region mid key env) k = lookupKey env k := by
  have h1 : k ≠ "ANTHROPIC_AUTH_TOKEN" := by rintro rfl; exact hk (by decide)
  have h2 : k ≠ "ANTHROPIC_BASE_URL" := by rintro rfl; exact hk (by decide)
  have h3 : k ≠ "API_TIMEOUT_MS" := by rintro rfl; exact hk (by decide)
  have h4 : k ≠ "CLAUDE_CODE_DISABLE_NONESSENTIAL_TRAFFIC" := by
    rintro rfl; exact hk (by decide)
  unfold applyEnv
  rw [lookupKey_foldl_setKey_of_ne _ _ _ (fun q hq => by
    rintro rfl; exact hk (overrides_key_managed p hp mid q hq))]
  rw [lookupKey_setKey_ne _ _ _ _ h4, lookupKey_setKey_ne _ _ _ _ h3,
    lookupKey_setKey_ne _ _ _ _ h2, lookupKey_setKey_ne _ _ _ _ h1,
    lookupKey_cleanEnv_of_not_managed _ _ hk]

theorem lookupKey_applyEnv_auth (p : Provider) (hp : p ∈ providers)
    (region : ProviderRegion) (mid key : String) (env : Doc) :
    lookupKey (applyEnv p region mid key env) "ANTHROPIC_AUTH_TOKEN"
      = some (JsonValue.str key) := by
  unfold applyEnv
  rw [lookupKey_foldl_setKey_of_ne _ _ _
    (fun q hq => (overrides_key_not_base p hp mid q hq).1)]
  rw [lookupKey_setKey_ne _ _ _ _ (by decide), lookupKey_setKey_ne _ _ _ _ (by decide),
    lookupKey_setKey_ne _ _ _ _ (by decide), lookupKey_setKey_self]

theorem lookupKey_applyEnv_baseUrl (p : Provider) (hp : p ∈ providers)
    (region : ProviderRegion) (mid key : String) (env : Doc) :
    lookupKey (applyEnv p region mid key env) "ANTHROPIC_BASE_URL"
      = some (JsonValue.str region.baseUrl) := by
  unfold applyEnv
  rw [lookupKey_foldl_setKey_of_ne _ _ _
    (fun q hq => (overrides_key_not_base p hp mid q hq).2.1)]
  rw [lookupKey_setKey_ne _ _ _ _ (by decide), lookupKey_setKey_ne _ _ _ _ (by decide),
    lookupKey_setKey_self]

theorem lookupKey_applyEnv_timeout (p : Provider) (hp : p ∈ providers)
    (region : ProviderRegion) (mid key : String) (env : Doc) :
    lookupKey (applyEnv p region mid key env) "API_TIMEOUT_MS"
      = some (JsonValue.str "3000000") := by
  unfold applyEnv
  rw [lookupKey_foldl_setKey_of_ne _ _ _
    (fun q hq => (overrides_key_not_base p hp mid q hq).2.2.1)]
  rw [lookupKey_setKey_ne _ _ _ _ (by decide), lookupKey_setKey_self]

theorem lookupKey_applyEnv_disable (p : Provider) (hp : p ∈ providers)
    (region : ProviderRegion) (mid key : String) (env : Doc) :
    lookupKey (applyEnv p region mid key env) "CLAUDE_CODE_DISABLE_NONESSENTIAL_TRAFFIC"
      = some (JsonValue.num 1) := by
  unfold applyEnv
  rw [lookupKey_foldl_setKey_of_ne _ _ _
    (fun q hq => (overrides_key_not_base p hp mid q hq).2.2.2)]
  rw [lookupKey_setKey_self]

theorem lookupKey_applyEnv_override (p : Provider) (hp : p ∈ providers)
    (region : ProviderRegion) (mid key : String) (env : Doc)
    (q : String × String) (hq : q ∈ p.getEnvOverrides mid) :
    lookupKey (applyEnv p region mid key env) q.1 = some (JsonValue.str q.2) := by
  unfold applyEnv
  rw [lookupKey_foldl_setKey, overrides_find_reverse p hp mid q hq]
  rfl

/-- For a managed key, the env produced by `applyEnv` does not depend on
the pre-existing env at all. -/
theorem lookupKey_applyEnv_managed_indep (p : Provider) (region : ProviderRegion)
    (mid key : String) (env : Doc) (k : String) (hk : k ∈ MANAGED_ENV_KEYS) :
    lookupKey (applyEnv p region mid key env) k
      = lookupKey (applyEnv p region mid key []) k := by
  unfold applyEnv
  rw [lookupKey_foldl_setKey, lookupKey_foldl_setKey]
  congr 1
  by_cases h4 : k = "CLAUDE_CODE_DISABLE_NONESSENTIAL_TRAFFIC"
  · subst h4; rw [lookupKey_setKey_self, lookupKey_setKey_self]
  · rw [lookupKey_setKey_ne _ _ _ _ h4, lookupKey_setKey_ne _ _ _ _ h4]
    by_cases h3 : k = "API_TIMEOUT_MS"
    · subst h3; rw [lookupKey_setKey_self, lookupKey_setKey_self]
    · rw [lookupKey_setKey_ne _ _ _ _ h3, lookupKey_setKey_ne _ _ _ _ h3]
      by_cases h2 : k = "ANTHROPIC_BASE_URL"
      · subst h2; rw [lookupKey_setKey_self, lookupKey_setKey_self]
      · rw [lookupKey_setKey_ne _ _ _ _ h2, lookupKey_setKey_ne _ _ _ _ h2]
        by_cases h1 : k = "ANTHROPIC_AUTH_TOKEN"
        · subst h1; rw [lookupKey_setKey_self, lookupKey_setKey_self]
        · rw [lookupKey_setKey_ne _ _ _ _ h1, lookupKey_setKey_ne _ _ _ _ h1,
            lookupKey_cleanEnv_of_managed _ _ hk]
          rfl

/-- Inversion of a `some` result of `unloadProviderConfig`. -/
theorem unloadProviderConfig_some_elim (Dc U : Doc)
    (hun : unloadProviderConfig Dc = some U) :
    U = (if (cleanEnv (envEntries Dc)).isEmpty then []
         else [("env", JsonValue.obj (cleanEnv (envEntries Dc)))]) := by
  unfold unloadProviderConfig at hun
  split at hun
  · exact absurd hun (by simp)
  · exact (Option.some_injective _ hun).symm

/-! ## Lemmas about the state-level operations and the file system -/

theorem ensureOnboardingS_settings (s : SysState) :
    (ensureOnboardingS s).settings = s.settings := by
  unfold ensureOnboardingS; split <;> rfl

theorem ensureOnboardingS_backups (s : SysState) :
    (ensureOnboardingS s).backups = s.backups := by
  unfold ensureOnboardingS; split <;> rfl

/-- After `ensureOnboarding`, the onboarding flag is truthy in the config
document. -/
theorem ensureOnboardingS_flag (s : SysState) :
    truthyOpt (lookupKey (ensureOnboardingS s).config "hasCompletedOnboarding") = true := by
  unfold ensureOnboardingS
  split
  · assumption
  · simp [lookupKey_setKey_self, truthyOpt, JsonValue.truthy]

theorem FS.read_write_self (fs : FS) (path c : String) :
    (fs.write path c).read path = some c := by
  obtain ⟨files⟩ := fs
  induction files with
  | nil => simp [FS.write, FS.writeEntries, FS.read]
  | cons hd tl ih =>
    obtain ⟨a, b⟩ := hd
    by_cases h : a = path
    · subst h; simp [FS.write, FS.writeEntries, FS.read]
    · simpa [FS.write, FS.writeEntries, FS.read, h] using ih

theorem FS.read_write_ne (fs : FS) (path pq c : String) (h : pq ≠ path) :
    (fs.write path c).read pq = fs.read pq := by
  obtain ⟨files⟩ := fs
  induction files with
  | nil => simp [FS.write, FS.writeEntries, FS.read, Ne.symm h]
  | cons hd tl ih =>
    obtain ⟨a, b⟩ := hd
    by_cases ha : a = path
    · subst ha; simp [FS.write, FS.writeEntries, FS.read, Ne.symm h]
    · by_cases hq : a = pq
      · subst hq; simp [FS.write, FS.writeEntries, FS.read, ha]
      · simpa [FS.write, FS.writeEntries, FS.read, ha, hq] using ih

theorem FS.exists_of_read_some (fs : FS) (path c : String)
    (h : fs.read path = some c) : fs.exists path = true := by
  obtain ⟨files⟩ := fs
  induction files with
  | nil => simp [FS.read] at h
  | cons hd tl ih =>
    obtain ⟨a, b⟩ := hd
    by_cases ha : a = path
    · subst ha; simp [FS.exists]
    · simp only [FS.read, List.find?] at h ih ⊢
      have hb : (a == path) = false := by simp [ha]
      rw [hb] at h
      simp only [FS.exists, List.any_cons, hb, Bool.false_or]
      exact ih h

/-! ## Claim theorems -/

/-- C9: applying provider `kimi`, region `global`, model `kimi-k2.5`,
credential `sk-test` to the empty document yields
`env.ANTHROPIC_BASE_URL = "https://api.moonshot.ai/anthropic"`,
`env.ANTHROPIC_MODEL = "kimi-k2.5"` and top-level `model = "kimi-k2.5"`. -/
theorem C9_kimi_scenario :
    (loadProviderConfig kimiProvider "global" "kimi-k2.5" "sk-test" []).toOption.map
      (fun d => (lookupKey (envEntries d) "ANTHROPIC_BASE_URL",
                 lookupKey (envEntries d) "ANTHROPIC_MODEL",
                 lookupKey d "model"))
    = some (some (JsonValue.str "https://api.moonshot.ai/anthropic"),
            some (JsonValue.str "kimi-k2.5"),
            some (JsonValue.str "kimi-k2.5")) := by
  rfl

/-- C7: on a settings document that has neither an `env` field nor a
`model` field, `unloadProviderConfig` takes the early no-op return: the
pure transformation signals `none` (nothing to remove, nothing written),
and at the state level the persisted settings document is unchanged. -/
theorem C7_unload_noop (st : SysState)
    (henv : lookupKey st.settings "env" = none)
    (hmodel : lookupKey st.settings "model" = none) :
    unloadProviderConfig st.settings = none ∧
    (unloadProviderConfigS st).settings = st.settings := by
  have h1 : unloadProviderConfig st.settings = none := by
    unfold unloadProviderConfig
    simp [henv, hmodel, truthyOpt]
  exact ⟨h1, by simp [unloadProviderConfigS, createBackupS, h1]⟩

/-- Witness for C7 at a document holding only an unmanaged top-level key. -/
theorem C7_unload_noop_witness :
    unloadProviderConfig [("statusLine", JsonValue.str "custom")] = none ∧
    (unloadProviderConfigS ⟨[("statusLine", JsonValue.str "custom")], [], []⟩).settings
      = [("statusLine", JsonValue.str "custom")] := by
  exact C7_unload_noop ⟨[("statusLine", JsonValue.str "custom")], [], []⟩ (by rfl) (by rfl)

/-- C8: `loadProviderConfig` throws `Unknown region: <id>` exactly when
the region id matches no region of the provider; when some region
matches, it returns a new settings document instead. -/
theorem C8_unknown_region (p : Provider) (rid mid key : String) (D : Doc) :
    ((∀ r ∈ p.regions, r.id ≠ rid) →
        loadProviderConfig p rid mid key D = Except.error ("Unknown region: " ++ rid)) ∧
    ((∃ r ∈ p.regions, r.id = rid) →
        ∃ Dq, loadProviderConfig p rid mid key D = Except.ok Dq) := by
  constructor
  · intro h
    have hfind : p.regions.find? (fun r => r.id == rid) = none := by
      rw [List.find?_eq_none]
      intro r hr
      simpa using h r hr
    unfold loadProviderConfig
    rw [hfind]
  · rintro ⟨r, hr, hid⟩
    cases hf : p.regions.find? (fun x => x.id == rid) with
    | none =>
      rw [List.find?_eq_none] at hf
      exact (hf r hr (by simp [hid])).elim
    | some region =>
      unfold loadProviderConfig
      rw [hf]
      exact ⟨_, rfl⟩

/-- Witness for C8: `kimi` has no region `europe`, and does have the
region `global`. -/
theorem C8_unknown_region_witness :
    loadProviderConfig kimiProvider "europe" "kimi-k2.5" "sk" []
      = Except.error ("Unknown region: " ++ "europe") ∧
    ∃ Dq, loadProviderConfig kimiProvider "global" "kimi-k2.5" "sk" [] = Except.ok Dq := by
  exact ⟨(C8_unknown_region kimiProvider "europe" "kimi-k2.5" "sk" []).1 (by decide),
         (C8_unknown_region kimiProvider "global" "kimi-k2.5" "sk" []).2 (by decide)⟩

/-- C10: when `loadProviderConfig` is called with a region id absent from
the provider, the settings document is left unchanged and the error is
raised — but the auto-backup has been created and the onboarding flag has
been ensured, because both happen before the region check. -/
theorem C10_effects_before_region_check (p : Provider) (rid mid key : String)
    (st : SysState) (hnone : ∀ r ∈ p.regions, r.id ≠ rid) :
    (loadProviderConfigS p rid mid key st).2 = some ("Unknown region: " ++ rid) ∧
    (loadProviderConfigS p rid mid key st).1.settings = st.settings ∧
    (loadProviderConfigS p rid mid key st).1.backups = st.backups ++ [st.settings] ∧
    truthyOpt (lookupKey (loadProviderConfigS p rid mid key st).1.config
      "hasCompletedOnboarding") = true := by
  have hfind : p.regions.find? (fun r => r.id == rid) = none := by
    rw [List.find?_eq_none]
    intro r hr
    simpa using hnone r hr
  have herr : ∀ d : Doc, loadProviderConfig p rid mid key d
      = Except.error ("Unknown region: " ++ rid) := by
    intro d
    unfold loadProviderConfig
    rw [hfind]
  unfold loadProviderConfigS
  simp [herr, ensureOnboardingS_settings, ensureOnboardingS_backups,
    ensureOnboardingS_flag, createBackupS]

/-- Witness for C10 at a concrete state and the unknown region `europe`. -/
theorem C10_effects_before_region_check_witness :
    (loadProviderConfigS kimiProvider "europe" "kimi-k2.5" "sk"
        ⟨[("foo", JsonValue.str "bar")], [], []⟩).2
      = some ("Unknown region: " ++ "europe") ∧
    (loadProviderConfigS kimiProvider "europe" "kimi-k2.5" "sk"
        ⟨[("foo", JsonValue.str "bar")], [], []⟩).1.settings
      = [("foo", JsonValue.str "bar")] ∧
    (loadProviderConfigS kimiProvider "europe" "kimi-k2.5" "sk"
        ⟨[("foo", JsonValue.str "bar")], [], []⟩).1.backups
      = [] ++ [[("foo", JsonValue.str "bar")]] ∧
    truthyOpt (lookupKey (loadProviderConfigS kimiProvider "europe" "kimi-k2.5" "sk"
        ⟨[("foo", JsonValue.str "bar")], [], []⟩).1.config
      "hasCompletedOnboarding") = true := by
  exact C10_effects_before_region_check kimiProvider "europe" "kimi-k2.5" "sk"
    ⟨[("foo", JsonValue.str "bar")], [], []⟩ (by decide)

/-- C5: `restoreBackup` fails with the backup-not-found error when the
backup path has no file; fails with the invalid-content error when the
backup content does not parse; and otherwise overwrites the live settings
file with exactly the backup's bytes, leaving every other file
untouched — no merge with the previous live content. -/
theorem C5_restoreBackup (parseOk : String → Bool) (sp bp : String) (fs : FS) :
    (fs.exists bp = false →
        restoreBackup parseOk sp fs bp
          = Except.error (RestoreError.backupNotFound bp)) ∧
    (∀ c, fs.read bp = some c → parseOk c = false →
        restoreBackup parseOk sp fs bp = Except.error RestoreError.invalidContent) ∧
    (∀ c, fs.read bp = some c → parseOk c = true →
        restoreBackup parseOk sp fs bp = Except.ok (fs.write sp c) ∧
        (fs.write sp c).read sp = some c ∧
        ∀ q, q ≠ sp → (fs.write sp c).read q = fs.read q) := by
  refine ⟨?_, ?_, ?_⟩
  · intro h
    unfold restoreBackup
    rw [h]
    rfl
  · intro c hc hbad
    unfold restoreBackup
    rw [FS.exists_of_read_some fs bp c hc]
    simp [hc, hbad]
  · intro c hc hok
    refine ⟨?_, FS.read_write_self fs sp c, fun q hq => FS.read_write_ne fs sp q c hq⟩
    unfold restoreBackup
    rw [FS.exists_of_read_some fs bp c hc]
    simp [hc, hok]

/-- Witness for C5: all three branches at concrete inputs. -/
theorem C5_restoreBackup_witness :
    restoreBackup parseAccepting "settings.json" fsExample "missing.json"
      = Except.error (RestoreError.backupNotFound "missing.json") ∧
    restoreBackup parseRejecting "settings.json" fsExample "backups/settings-1.json"
      = Except.error RestoreError.invalidContent ∧
    restoreBackup parseAccepting "settings.json" fsExample "backups/settings-1.json"
      = Except.ok (fsExample.write "settings.json" "backupbytes") ∧
    (fsExample.write "settings.json" "backupbytes").read "settings.json"
      = some "backupbytes" := by
  refine ⟨(C5_restoreBackup parseAccepting "settings.json" "missing.json" fsExample).1 (by rfl),
    (C5_restoreBackup parseRejecting "settings.json" "backups/settings-1.json" fsExample).2.1
      "backupbytes" (by rfl) (by rfl),
    ?_⟩
  have h := (C5_restoreBackup parseAccepting "settings.json" "backups/settings-1.json"
    fsExample).2.2 "backupbytes" (by rfl) (by rfl)
  exact ⟨h.1, h.2.1⟩

/-- C1: for every registry provider and every successful apply, the new
document's env keeps every non-managed key of the old env with its
original value, and every top-level key other than `env` and `model`
keeps its original value. -/
theorem C1_apply_frame (p : Provider) (hp : p ∈ providers) (rid mid key : String)
    (D Dq : Doc) (hap : loadProviderConfig p rid mid key D = Except.ok Dq) :
    (∀ k v, k ∉ MANAGED_ENV_KEYS → lookupKey (envEntries D) k = some v →
        lookupKey (envEntries Dq) k = some v) ∧
    (∀ k, k ≠ "env" → k ≠ "model" → lookupKey Dq k = lookupKey D k) := by
  obtain ⟨region, hfind, rfl⟩ := loadProviderConfig_ok_elim p rid mid key D Dq hap
  constructor
  · intro k v hk hkD
    rw [envEntries_of_apply_result,
      lookupKey_applyEnv_not_managed p hp region mid key _ k hk, hkD]
  · intro k henv hmodel
    rw [lookupKey_setKey_ne _ _ _ _ hmodel, lookupKey_setKey_ne _ _ _ _ henv]

/-- Witness for C1: the unmanaged env key `FOO` and the top-level key
`other` survive an apply of `zhipu`/`global`. -/
theorem C1_apply_frame_witness :
    lookupKey (envEntries frameDocOut) "FOO" = some (JsonValue.str "x") ∧
    lookupKey frameDocOut "other" = lookupKey frameDocIn "other" := by
  have h := C1_apply_frame zhipuProvider (by simp [providers]) "global" "glm-5" "sk"
    frameDocIn frameDocOut (by rfl)
  exact ⟨h.1 "FOO" (JsonValue.str "x") (by decide) (by rfl),
         h.2 "other" (by decide) (by decide)⟩

/-- C2: for every registry provider and every successful apply, every
managed key of the result env is independent of the previous document
(same value as applying to the empty document), the four base keys hold
the freshly supplied credential, region base URL, fixed timeout and fixed
disable flag, and each provider env override for the model holds its
fresh value. -/
theorem C2_apply_replaces_managed (p : Provider) (hp : p ∈ providers)
    (rid mid key : String) (D Dq E0 : Doc) (region : ProviderRegion)
    (hfind : p.regions.find? (fun r => r.id == rid) = some region)
    (hap : loadProviderConfig p rid mid key D = Except.ok Dq)
    (hap0 : loadProviderConfig p rid mid key [] = Except.ok E0) :
    (∀ k ∈ MANAGED_ENV_KEYS, lookupKey (envEntries Dq) k = lookupKey (envEntries E0) k) ∧
    lookupKey (envEntries Dq) "ANTHROPIC_AUTH_TOKEN" = some (JsonValue.str key) ∧
    lookupKey (envEntries Dq) "ANTHROPIC_BASE_URL" = some (JsonValue.str region.baseUrl) ∧
    lookupKey (envEntries Dq) "API_TIMEOUT_MS" = some (JsonValue.str "3000000") ∧
    lookupKey (envEntries Dq) "CLAUDE_CODE_DISABLE_NONESSENTIAL_TRAFFIC"
      = some (JsonValue.num 1) ∧
    (∀ q ∈ p.getEnvOverrides mid,
        lookupKey (envEntries Dq) q.1 = some (JsonValue.str q.2)) := by
  obtain ⟨regionA, hfindA, rfl⟩ := loadProviderConfig_ok_elim p rid mid key D Dq hap
  obtain ⟨regionB, hfindB, rfl⟩ := loadProviderConfig_ok_elim p rid mid key [] E0 hap0
  rw [hfind] at hfindA hfindB
  obtain rfl := Option.some_injective _ hfindA
  obtain rfl := Option.some_injective _ hfindB
  refine ⟨?_, ?_, ?_, ?_, ?_, ?_⟩
  · intro k hk
    rw [envEntries_of_apply_result, envEntries_of_apply_result]
    exact lookupKey_applyEnv_managed_indep p region mid key _ k hk
  · rw [envEntries_of_apply_result]
    exact lookupKey_applyEnv_auth p hp region mid key _
  · rw [envEntries_of_apply_result]
    exact lookupKey_applyEnv_baseUrl p hp region mid key _
  · rw [envEntries_of_apply_result]
    exact lookupKey_applyEnv_timeout p hp region mid key _
  · rw [envEntries_of_apply_result]
    exact lookupKey_applyEnv_disable p hp region mid key _
  · intro q hq
    rw [envEntries_of_apply_result]
    exact lookupKey_applyEnv_override p hp region mid key _ q hq

/-- Witness for C2 at `kimi`/`global` applied to a document with a stale
managed key. -/
theorem C2_apply_replaces_managed_witness :
    lookupKey (envEntries managedDocOut) "ANTHROPIC_MODEL"
      = lookupKey (envEntries managedDocOutEmpty) "ANTHROPIC_MODEL" ∧
    lookupKey (envEntries managedDocOut) "ANTHROPIC_AUTH_TOKEN"
      = some (JsonValue.str "sk") ∧
    lookupKey (envEntries managedDocOut) "ANTHROPIC_BASE_URL"
      = some (JsonValue.str "https://api.moonshot.ai/anthropic") ∧
    lookupKey (envEntries managedDocOut) "ANTHROPIC_MODEL"
      = some (JsonValue.str "kimi-k2.5") := by
  have h := C2_apply_replaces_managed kimiProvider (by simp [providers]) "global"
    "kimi-k2.5" "sk" managedDocIn managedDocOut managedDocOutEmpty
    { id := "global", name := "Global",
      baseUrl := "https://api.moonshot.ai/anthropic",
      apiKeyUrl := "https://platform.moonshot.ai/console/api-keys" }
    (by rfl) (by rfl) (by rfl)
  exact ⟨h.1 "ANTHROPIC_MODEL" (by decide), h.2.1, h.2.2.1,
         h.2.2.2.2.2 ("ANTHROPIC_MODEL", "kimi-k2.5") (by simp [kimiProvider])⟩

/-- C3 counterexample: the claim as stated is false on the code.  Apply
`kimi`/`global` to the document `{"foo": "bar"}` (whose top-level key
`foo` is neither `env` nor `model`), then unload: the result is the empty
document, so `foo` is not "present unchanged" — `unloadProviderConfig`
rebuilds the document from scratch and keeps only the cleaned `env`,
dropping every other top-level key. -/
theorem C3_counterexample :
    (loadProviderConfig kimiProvider "global" "kimi-k2.5" "sk-test"
        [("foo", JsonValue.str "bar")]).toOption.bind unloadProviderConfig
      = some [] ∧
    lookupKey ([] : Doc) "foo" = none := by
  exact ⟨rfl, rfl⟩

/-- C3 (amended): composing unload after a successful apply of a registry
provider removes exactly the keys apply introduced into `env` and the
`model` setting, and restores the non-managed subset of the *env*: every
non-managed env key of D keeps its old value (absent keys stay absent),
every managed env key is gone, and `model` is gone.  Top-level keys of D
other than `env` are *not* restored: unload produces a document containing
at most the kept `env`. -/
theorem C3_unload_apply_roundtrip (p : Provider) (hp : p ∈ providers)
    (rid mid key : String) (D Dq U : Doc)
    (hap : loadProviderConfig p rid mid key D = Except.ok Dq)
    (hun : unloadProviderConfig Dq = some U) :
    (∀ k, k ∉ MANAGED_ENV_KEYS → lookupKey (envEntries U) k = lookupKey (envEntries D) k) ∧
    (∀ k ∈ MANAGED_ENV_KEYS, lookupKey (envEntries U) k = none) ∧
    lookupKey U "model" = none := by
  obtain ⟨region, hfind, rfl⟩ := loadProviderConfig_ok_elim p rid mid key D Dq hap
  have hU := unloadProviderConfig_some_elim _ U hun
  rw [envEntries_of_apply_result] at hU
  by_cases hE : (cleanEnv (applyEnv p region mid key (envEntries D))).isEmpty = true
  · rw [if_pos hE] at hU
    subst hU
    have hnil : cleanEnv (applyEnv p region mid key (envEntries D)) = [] :=
      List.isEmpty_iff.mp hE
    refine ⟨?_, fun k hk => rfl, rfl⟩
    intro k hk
    have hcl : lookupKey (cleanEnv (applyEnv p region mid key (envEntries D))) k
        = lookupKey (envEntries D) k := by
      rw [lookupKey_cleanEnv_of_not_managed _ _ hk,
        lookupKey_applyEnv_not_managed p hp region mid key _ k hk]
    rw [hnil] at hcl
    exact hcl
  · rw [if_neg hE] at hU
    subst hU
    refine ⟨?_, ?_, rfl⟩
    · intro k hk
      show lookupKey (cleanEnv (applyEnv p region mid key (envEntries D))) k
        = lookupKey (envEntries D) k
      rw [lookupKey_cleanEnv_of_not_managed _ _ hk,
        lookupKey_applyEnv_not_managed p hp region mid key _ k hk]
    · intro k hk
      show lookupKey (cleanEnv (applyEnv p region mid key (envEntries D))) k = none
      exact lookupKey_cleanEnv_of_managed _ _ hk

/-- Witness for C3 (amended) at `kimi`/`global` over a document with one
unmanaged and one stale managed env key. -/
theorem C3_unload_apply_roundtrip_witness :
    lookupKey (envEntries roundtripDocUnloaded) "FOO"
      = lookupKey (envEntries roundtripDocIn) "FOO" ∧
    lookupKey (envEntries roundtripDocUnloaded) "ANTHROPIC_MODEL" = none ∧
    lookupKey roundtripDocUnloaded "model" = none := by
  have h := C3_unload_apply_roundtrip kimiProvider (by simp [providers]) "global"
    "kimi-k2.5" "sk" roundtripDocIn roundtripDocApplied roundtripDocUnloaded
    (by rfl) (by rfl)
  exact ⟨h.1 "FOO" (by decide), h.2.1 "ANTHROPIC_MODEL" (by decide), h.2.2⟩

/-- C6: the `model` setting computed by apply is provider dependent.  For
provider id `claude`, a model id containing `opus` maps to `opus`; one
containing `sonnet` (and not `opus`) maps to `sonnet`; one containing
`haiku` (and neither `opus` nor `sonnet`) maps to `haiku` — the if-chain
checks the aliases in that order — and one containing none of them passes
through; for every other provider id the model id passes through
unchanged.  Under an apply of the claude provider, `env.ANTHROPIC_MODEL`
keeps the full model id while the top-level `model` setting gets the
mapped alias. -/
theorem C6_model_setting (mid pid key : String) (D Dq : Doc) :
    (containsSubstr mid "opus" = true → mapModelToSetting mid "claude" = "opus") ∧
    (containsSubstr mid "opus" = false → containsSubstr mid "sonnet" = true →
        mapModelToSetting mid "claude" = "sonnet") ∧
    (containsSubstr mid "opus" = false → containsSubstr mid "sonnet" = false →
        containsSubstr mid "haiku" = true → mapModelToSetting mid "claude" = "haiku") ∧
    (containsSubstr mid "opus" = false → containsSubstr mid "sonnet" = false →
        containsSubstr mid "haiku" = false → mapModelToSetting mid "claude" = mid) ∧
    (pid ≠ "claude" → mapModelToSetting mid pid = mid) ∧
    (loadProviderConfig claudeProvider "global" mid key D = Except.ok Dq →
        lookupKey (envEntries Dq) "ANTHROPIC_MODEL" = some (JsonValue.str mid) ∧
        lookupKey Dq "model" = some (JsonValue.str (mapModelToSetting mid "claude"))) := by
  refine ⟨?_, ?_, ?_, ?_, ?_, ?_⟩
  · intro h1
    unfold mapModelToSetting
    simp [h1]
  · intro h1 h2
    unfold mapModelToSetting
    simp [h1, h2]
  · intro h1 h2 h3
    unfold mapModelToSetting
    simp [h1, h2, h3]
  · intro h1 h2 h3
    unfold mapModelToSetting
    simp [h1, h2, h3]
  · intro hpid
    unfold mapModelToSetting
    simp [hpid]
  · intro hap
    obtain ⟨region, hfind, rfl⟩ :=
      loadProviderConfig_ok_elim claudeProvider "global" mid key D Dq hap
    constructor
    · rw [envEntries_of_apply_result]
      exact lookupKey_applyEnv_override claudeProvider (by simp [providers]) region mid key _
        ("ANTHROPIC_MODEL", mid) (by simp [claudeProvider])
    · rw [lookupKey_setKey_self]
      rfl

/-- Witness for C6: the three aliases, a third-party pass-through, and the
full apply of an opus model id. -/
theorem C6_model_setting_witness :
    mapModelToSetting "claude-3-opus-20240229" "claude" = "opus" ∧
    mapModelToSetting "claude-3-5-sonnet-20241022" "claude" = "sonnet" ∧
    mapModelToSetting "claude-3-haiku-20240307" "claude" = "haiku" ∧
    mapModelToSetting "kimi-k2.5" "kimi" = "kimi-k2.5" ∧
    lookupKey (envEntries aliasDocOut) "ANTHROPIC_MODEL"
      = some (JsonValue.str "claude-3-opus-20240229") ∧
    lookupKey aliasDocOut "model"
      = some (JsonValue.str (mapModelToSetting "claude-3-opus-20240229" "claude")) := by
  have h6 := (C6_model_setting "claude-3-opus-20240229" "claude" "sk" [] aliasDocOut).2.2.2.2.2
    (by rfl)
  exact ⟨(C6_model_setting "claude-3-opus-20240229" "claude" "sk" [] []).1 (by decide),
    (C6_model_setting "claude-3-5-sonnet-20241022" "claude" "sk" [] []).2.1
      (by decide) (by decide),
    (C6_model_setting "claude-3-haiku-20240307" "claude" "sk" [] []).2.2.1
      (by decide) (by decide) (by decide),
    (C6_model_setting "kimi-k2.5" "kimi" "sk" [] []).2.2.2.2.1 (by decide),
    h6.1, h6.2⟩

/-- Detection after applying a registry provider to the empty document,
expressed through `detectProviderByBaseUrl` at the configured region base
URL (requires a truthy credential and base URL, as the detector bails on
falsy values). -/
theorem detect_after_apply_general (p : Provider) (hp : p ∈ providers)
    (rid mid key : String) (region : ProviderRegion)
    (hfind : p.regions.find? (fun x => x.id == rid) = some region)
    (Dq : Doc) (hap : loadProviderConfig p rid mid key [] = Except.ok Dq)
    (hkey : key ≠ "") (hurl : region.baseUrl ≠ "") :
    (detectCurrentConfig Dq).provider = detectProviderByBaseUrl region.baseUrl ∧
    (detectCurrentConfig Dq).regionId
      = match detectProviderByBaseUrl region.baseUrl with
        | some pd => (pd.regions.find? (fun x => x.baseUrl == region.baseUrl)).map
            (fun x => x.id)
        | none => none := by
  obtain ⟨regionA, hfindA, rfl⟩ := loadProviderConfig_ok_elim p rid mid key [] Dq hap
  rw [hfind] at hfindA
  obtain rfl := Option.some_injective _ hfindA
  have hB : lookupKey (envEntries (setKey (setKey [] "env"
      (JsonValue.obj (applyEnv p region mid key (envEntries [])))) "model"
      (JsonValue.str (mapModelToSetting mid p.id)))) "ANTHROPIC_BASE_URL"
      = some (JsonValue.str region.baseUrl) := by
    rw [envEntries_of_apply_result]
    exact lookupKey_applyEnv_baseUrl p hp region mid key _
  have hA : lookupKey (envEntries (setKey (setKey [] "env"
      (JsonValue.obj (applyEnv p region mid key (envEntries [])))) "model"
      (JsonValue.str (mapModelToSetting mid p.id)))) "ANTHROPIC_AUTH_TOKEN"
      = some (JsonValue.str key) := by
    rw [envEntries_of_apply_result]
    exact lookupKey_applyEnv_auth p hp region mid key _
  unfold detectCurrentConfig
  simp only [hB, hA]
  simp [truthyOpt, JsonValue.truthy, hurl, hkey, jstr]

/-- C4 counterexample: the claim as stated is false for the credential
`""`.  Applying `claude`/`global` with the empty credential configures
the provider, but detection then treats the falsy empty
`ANTHROPIC_AUTH_TOKEN` as absent and identifies neither provider nor
region. -/
theorem C4_counterexample :
    (loadProviderConfig claudeProvider "global" "claude-3-opus-20240229" "" []).toOption.map
      (fun d => ((detectCurrentConfig d).provider.isNone,
                 (detectCurrentConfig d).regionId.isNone))
      = some (true, true) := by
  rfl

/-- C4 (amended): for every provider in the registry, every region of
that provider, every model id and every *nonempty* credential, detecting
the configuration right after applying to the empty document identifies
exactly the applied provider and region. -/
theorem C4_detect_after_apply (p : Provider) (hp : p ∈ providers)
    (r : ProviderRegion) (hr : r ∈ p.regions) (mid key : String) (hkey : key ≠ "")
    (Dq : Doc) (hap : loadProviderConfig p r.id mid key [] = Except.ok Dq) :
    ((detectCurrentConfig Dq).provider).map Provider.id = some p.id ∧
    (detectCurrentConfig Dq).regionId = some r.id := by
  simp only [providers, List.mem_cons, List.not_mem_nil, or_false] at hp
  rcases hp with rfl | rfl | rfl | rfl <;>
    simp only [claudeProvider, zhipuProvider, minimaxProvider, kimiProvider,
      List.mem_cons, List.mem_singleton, List.not_mem_nil, or_false] at hr <;>
    rcases hr with rfl | rfl <;>
      { obtain ⟨h1, h2⟩ := detect_after_apply_general _ (by simp [providers]) _ mid key _
          (by rfl) Dq hap hkey (by decide)
        exact ⟨by rw [h1]; rfl, by rw [h2]; rfl⟩ }

/-- Witness for C4 (amended) at `minimax`/`china` with a nonempty
credential. -/
theorem C4_detect_after_apply_witness :
    ((detectCurrentConfig detectDocOut).provider).map Provider.id = some "minimax" ∧
    (detectCurrentConfig detectDocOut).regionId = some "china" := by
  have h := C4_detect_after_apply minimaxProvider (by simp [providers])
    { id := "china", name := "China",
      baseUrl := "https://api.minimaxi.com/anthropic",
      apiKeyUrl := "https://platform.minimaxi.com/user-center/basic-information/interface-key" }
    (by simp [minimaxProvider]) "MiniMax-M2.5" "sk" (by decide) detectDocOut (by rfl)
  exact h

end CCS
